import Mathlib

/-!
Shallow embedding of `source/lambda/schedulers/asg_service.py` (class `AsgService`)
and proofs about it.  Pure functions of the source become Lean functions; the
effectful start/stop drivers become explicit state-passing functions over an
environment record that supplies the outcome of every control-plane call
(the retrying client, the parameter store) and the responses of every status
query, numbered in call order.  Log statements become structured events;
string rendering of data arguments (Python `str.format`) is the logger
collaborator's concern and is kept structural here.
-/

namespace AsgSched

/-- Source constant `AsgService.ASG_STATE_RUNNING`. -/
def ASG_STATE_RUNNING : String := "running"

/-- Source constant `AsgService.ASG_STATE_TERMINATED`. -/
def ASG_STATE_TERMINATED : String := "stopped"

/-- Source constant `STOP_BATCH_SIZE = 50`. -/
def STOP_BATCH_SIZE : Nat := 50

/-- Source constant `START_BATCH_SIZE = 5`. -/
def START_BATCH_SIZE : Nat := 5

/-- Modelled from the spec: the reached-state constants
`InstanceSchedule.STATE_STOPPED` / `STATE_RUNNING` come from the
`configuration.instance_schedule` module, which is not part of the sources;
the spec states the output stream carries `reachedState` in the set
consisting of `running` and `stopped`. -/
def STATE_STOPPED : String := "stopped"

/-- Modelled from the spec: see `STATE_STOPPED`. -/
def STATE_RUNNING : String := "running"

/-- A key/value tag pair, as the `Key`/`Value` dictionaries of the source. -/
abbrev AsgTag := String × String

/-- One element of the stop/start input lists: the source accesses only
`i.id` and `i.asg_is_ecs` on these records. -/
structure AsgInstance where
  id : String
  asg_is_ecs : String
  deriving DecidableEq, Repr

/-! ## instance_batches (source lines 81-90) -/

/-- The buffer-accumulating loop body of `AsgService.instance_batches`:
append each element to a buffer, emit the buffer when it reaches `size`,
and emit the non-empty remainder at the end. -/
def instanceBatchesAux (size : Nat) : List α → List α → List (List α)
  | buf, [] => if buf.length > 0 then [buf] else []
  | buf, x :: xs =>
    let buf2 := buf ++ [x]
    if buf2.length = size then buf2 :: instanceBatchesAux size [] xs
    else instanceBatchesAux size buf2 xs

/-- Source `AsgService.instance_batches(asg_instances, size)`. -/
def instance_batches (asg_instances : List α) (size : Nat) : List (List α) :=
  instanceBatchesAux size [] asg_instances

theorem instanceBatchesAux_join (size : Nat) :
    ∀ (xs buf : List α), buf.length < size →
      (instanceBatchesAux size buf xs).flatten = buf ++ xs := by
  intro xs
  induction xs with
  | nil =>
      intro buf _
      by_cases h0 : buf.length > 0
      · simp [instanceBatchesAux, h0]
      · have hnil : buf = [] := by
          cases buf with
          | nil => rfl
          | cons a l => simp at h0
        subst hnil
        simp [instanceBatchesAux]
  | cons x xs ih =>
      intro buf hlt
      simp only [instanceBatchesAux]
      by_cases hs : (buf ++ [x]).length = size
      · rw [if_pos hs, List.flatten_cons]
        have hpos : 0 < size := by
          simp only [List.length_append, List.length_singleton] at hs
          omega
        rw [ih [] (by simpa using hpos)]
        simp
      · rw [if_neg hs]
        have hlen : (buf ++ [x]).length < size := by
          simp only [List.length_append, List.length_singleton] at hs ⊢
          omega
        rw [ih (buf ++ [x]) hlen]
        simp

theorem instanceBatchesAux_mem (size : Nat) :
    ∀ (xs buf : List α), buf.length < size →
      ∀ b ∈ instanceBatchesAux size buf xs, b ≠ [] ∧ b.length ≤ size := by
  intro xs
  induction xs with
  | nil =>
      intro buf hlt b hb
      by_cases h0 : buf.length > 0
      · simp only [instanceBatchesAux, if_pos h0, List.mem_singleton] at hb
        subst hb
        refine ⟨?_, le_of_lt hlt⟩
        intro hnil
        rw [hnil] at h0
        simp at h0
      · simp [instanceBatchesAux, h0] at hb
  | cons x xs ih =>
      intro buf hlt b hb
      simp only [instanceBatchesAux] at hb
      by_cases hs : (buf ++ [x]).length = size
      · rw [if_pos hs, List.mem_cons] at hb
        rcases hb with rfl | hb
        · refine ⟨by simp, by simp [hs]⟩
        · have hpos : 0 < size := by
            simp only [List.length_append, List.length_singleton] at hs
            omega
          exact ih [] (by simpa using hpos) b hb
      · rw [if_neg hs] at hb
        have hlen : (buf ++ [x]).length < size := by
          simp only [List.length_append, List.length_singleton] at hs ⊢
          omega
        exact ih (buf ++ [x]) hlen b hb

theorem instanceBatchesAux_dropLast (size : Nat) :
    ∀ (xs buf : List α), buf.length < size →
      ∀ b ∈ (instanceBatchesAux size buf xs).dropLast, b.length = size := by
  intro xs
  induction xs with
  | nil =>
      intro buf _ b hb
      by_cases h0 : buf.length > 0
      · simp [instanceBatchesAux, if_pos h0] at hb
      · simp [instanceBatchesAux, h0] at hb
  | cons x xs ih =>
      intro buf hlt b hb
      simp only [instanceBatchesAux] at hb
      by_cases hs : (buf ++ [x]).length = size
      · rw [if_pos hs] at hb
        have hpos : 0 < size := by
          simp only [List.length_append, List.length_singleton] at hs
          omega
        cases hrest : instanceBatchesAux size ([] : List α) xs with
        | nil => rw [hrest] at hb; simp at hb
        | cons r rs =>
            rw [hrest, List.dropLast_cons₂, List.mem_cons] at hb
            rcases hb with rfl | hb
            · exact hs
            · exact ih [] (by simpa using hpos) b (by rw [hrest]; exact hb)
      · rw [if_neg hs] at hb
        have hlen : (buf ++ [x]).length < size := by
          simp only [List.length_append, List.length_singleton] at hs ⊢
          omega
        exact ih (buf ++ [x]) hlen b hb

/-- C8: for every input sequence and positive size, `instance_batches`
partitions the input in order into consecutive batches: their concatenation
is the input, no batch is empty, no batch exceeds `size`, only the last
batch may be shorter than `size`, the empty input yields no batches, and a
7-element input with size 5 yields exactly the two batches of 5 and 2. -/
theorem instance_batches_spec :
    (∀ (α : Type) (xs : List α) (size : Nat), 0 < size →
        (instance_batches xs size).flatten = xs
        ∧ (∀ b ∈ instance_batches xs size, b ≠ [] ∧ b.length ≤ size)
        ∧ (∀ b ∈ (instance_batches xs size).dropLast, b.length = size))
    ∧ instance_batches ([] : List Nat) 5 = []
    ∧ instance_batches [1, 2, 3, 4, 5, 6, 7] 5 = [[1, 2, 3, 4, 5], [6, 7]] := by
  refine ⟨?_, by decide, by decide⟩
  intro α xs size hsize
  refine ⟨?_, ?_, ?_⟩
  · simpa using instanceBatchesAux_join size xs [] (by simpa using hsize)
  · exact instanceBatchesAux_mem size xs [] (by simpa using hsize)
  · exact instanceBatchesAux_dropLast size xs [] (by simpa using hsize)

/-- Witness for `instance_batches_spec` at a concrete input. -/
theorem instance_batches_spec_witness :
    0 < 2
    ∧ (instance_batches [10, 20, 30] 2).flatten = [10, 20, 30]
    ∧ (∀ b ∈ instance_batches [10, 20, 30] 2, b ≠ [] ∧ b.length ≤ 2) :=
  ⟨by decide, (instance_batches_spec.1 Nat [10, 20, 30] 2 (by decide)).1,
    (instance_batches_spec.1 Nat [10, 20, 30] 2 (by decide)).2.1⟩

/-! ## State classification (source lines 138-197) -/

/-- The raw group descriptor projected by the jmespath expression of
`get_schedulable_instances`: name, scaling bounds, in-service instance
count, and the tags. -/
structure RawAsg where
  autoScalingGroupName : String
  desiredCapacity : Nat
  minSize : Nat
  instanceNumber : Nat
  tags : List AsgTag
  deriving DecidableEq, Repr

/-- Python dictionary lookup over the tag list: the dict comprehension in
`get_tags` lets later duplicate keys overwrite earlier ones, so lookup runs
over the reversed list. -/
def dictGet (tags : List AsgTag) (k : String) : Option String :=
  List.lookup k tags.reverse

/-- The normalized record built by `AsgService._select_instance_data`
(only fields the source fills; the `schedulers.INST_*` string keys of the
Python dict become structure fields). -/
structure AsgData where
  id : String
  name : String
  desired_capacity : Nat
  min_size : Nat
  schedule : Option String
  state : String
  allow_resize : Bool
  is_running : Bool
  is_terminated : Bool
  current_state : String
  instance_type : String
  asg_is_ecs : String
  tags : List AsgTag
  deriving DecidableEq, Repr

/-- Source `AsgService._select_instance_data(asg, tagname, config)` (pure
part: record construction; `self.allow_resize` is `False` from `__init__`). -/
def select_instance_data (asg : RawAsg) (tagname : String) : AsgData :=
  let tags := asg.tags
  let state :=
    if asg.instanceNumber = 0 then ASG_STATE_TERMINATED else ASG_STATE_RUNNING
  let is_running := ASG_STATE_RUNNING = state
  let is_terminated := state = ASG_STATE_TERMINATED
  let asg_is_ecs :=
    if dictGet tags "aws:cloudformation:logical-id" = some "ECSAutoScalingGroup"
    then "true" else "false"
  { id := asg.autoScalingGroupName
    name := asg.autoScalingGroupName
    desired_capacity := asg.desiredCapacity
    min_size := asg.minSize
    schedule := dictGet tags tagname
    state := state
    allow_resize := false
    is_running := is_running
    is_terminated := is_terminated
    current_state := if is_running then STATE_RUNNING else STATE_STOPPED
    instance_type := "asg"
    asg_is_ecs := asg_is_ecs
    tags := tags }

/-- Source `AsgService.get_asg_status(client, asg_ids)`: maps every group
descriptor of the describe response to its name and a `stopped`/`running`
label derived from the in-service instance count. -/
def get_asg_status (resp : List (String × Nat)) : List (String × String) :=
  resp.map (fun i => (i.1, if i.2 = 0 then "stopped" else "running"))

/-- C7: the classifier labels a raw descriptor `stopped` exactly when its
in-service instance count is 0 and `running` exactly when it is positive,
so every produced record has a state in the set of `running` and `stopped`. -/
theorem select_instance_data_state (asg : RawAsg) (tagname : String) :
    ((select_instance_data asg tagname).state = ASG_STATE_TERMINATED
        ↔ asg.instanceNumber = 0)
    ∧ ((select_instance_data asg tagname).state = ASG_STATE_RUNNING
        ↔ 0 < asg.instanceNumber)
    ∧ ((select_instance_data asg tagname).state = "running"
        ∨ (select_instance_data asg tagname).state = "stopped") := by
  by_cases h : asg.instanceNumber = 0
  · simp [select_instance_data, h, ASG_STATE_TERMINATED, ASG_STATE_RUNNING]
  · simp only [select_instance_data, h, if_neg h, ASG_STATE_TERMINATED,
      ASG_STATE_RUNNING]
    refine ⟨by simp [h], by simpa using Nat.pos_of_ne_zero h, Or.inl rfl⟩

/-- C10: the state label the convergence poll (`get_asg_status`) assigns to
a group agrees with the label discovery (`_select_instance_data`) derives
from the same raw in-service count: both are `stopped` exactly on count 0
and `running` otherwise. -/
theorem get_asg_status_agrees_with_discovery :
    (∀ (raw : RawAsg) (tagname : String),
        get_asg_status [(raw.autoScalingGroupName, raw.instanceNumber)]
          = [(raw.autoScalingGroupName, (select_instance_data raw tagname).state)])
    ∧ (∀ (tagname : String) (resp : List (String × Nat)),
        get_asg_status resp
          = resp.map (fun i =>
              (i.1,
               (select_instance_data
                  { autoScalingGroupName := i.1, desiredCapacity := 0,
                    minSize := 0, instanceNumber := i.2, tags := [] }
                  tagname).state))) := by
  constructor
  · intro raw tagname
    by_cases h : raw.instanceNumber = 0 <;>
      simp [get_asg_status, select_instance_data, h,
            ASG_STATE_TERMINATED, ASG_STATE_RUNNING]
  · intro tagname resp
    simp [get_asg_status, select_instance_data,
          ASG_STATE_TERMINATED, ASG_STATE_RUNNING]

/-! ## Tag bookkeeping (source lines 224-230 and 325-343) -/

/-- A `create_or_update_tags` call record as issued by the stop path:
resource id, key, value, and the propagate-at-launch flag. -/
structure AsgTagCall where
  resourceId : String
  key : String
  value : String
  propagateAtLaunch : Bool
  deriving DecidableEq, Repr

/-- Source lines 229-230: the start-tag keys scheduled for removal on stop
are those started-tag keys that are not also stop-tag keys. -/
def start_tags_keys_of (started_tags stop_tags : List AsgTag) : List String :=
  (started_tags.filter
      (fun t => decide (t.1 ∉ stop_tags.map Prod.fst))).map Prod.fst

/-- A group tag store: tag key to value, unique keys (cloud-side tags). -/
abbrev TagStore := String → Option String

/-- Effect of one `delete_tags` call for one key on a group tag store. -/
def deleteTag (s : TagStore) (k : String) : TagStore :=
  fun k2 => if k2 = k then none else s k2

/-- Effect of one `create_or_update_tags` call on a group tag store. -/
def upsertTag (s : TagStore) (k v : String) : TagStore :=
  fun k2 => if k2 = k then some v else s k2

/-- Effect of the stop-path tag bookkeeping (source lines 331-338) on one
stopped group tag store: delete every key of `start_tags_keys`, then
create-or-update every stop tag, in list order. -/
def applyStopTransition (started_tags stop_tags : List AsgTag)
    (s : TagStore) : TagStore :=
  stop_tags.foldl (fun st t => upsertTag st t.1 t.2)
    ((start_tags_keys_of started_tags stop_tags).foldl deleteTag s)

/-- The `create_or_update_tags` calls the stop path issues for one stopped
group (source line 338): one per stop tag, propagate-at-launch `False`. -/
def createCallsFor (asg : String) (stop_tags : List AsgTag) : List AsgTagCall :=
  stop_tags.map (fun t =>
    { resourceId := asg, key := t.1, value := t.2, propagateAtLaunch := false })

theorem foldl_deleteTag (ks : List String) :
    ∀ (s : TagStore) (k : String),
      (ks.foldl deleteTag s) k = if k ∈ ks then none else s k := by
  induction ks with
  | nil => intro s k; simp
  | cons a ks ih =>
      intro s k
      rw [List.foldl_cons, ih]
      by_cases hk : k = a <;> by_cases hm : k ∈ ks <;>
        simp [deleteTag, hk, hm]

theorem foldl_upsertTag_not_mem (ts : List AsgTag) :
    ∀ (s : TagStore) (k : String), k ∉ ts.map Prod.fst →
      (ts.foldl (fun st t => upsertTag st t.1 t.2) s) k = s k := by
  induction ts with
  | nil => intro s k _; simp
  | cons t ts ih =>
      intro s k hk
      simp only [List.map_cons, List.mem_cons] at hk
      push_neg at hk
      rw [List.foldl_cons, ih _ _ hk.2]
      simp [upsertTag, hk.1]

theorem lookup_of_mem_keys (ts : List AsgTag) (k : String)
    (h : k ∈ ts.map Prod.fst) : ∃ v, List.lookup k ts = some v := by
  induction ts with
  | nil => simp at h
  | cons t ts ih =>
      simp only [List.map_cons, List.mem_cons] at h
      by_cases hk : k = t.1
      · exact ⟨t.2, by simp [List.lookup, hk]⟩
      · have hb : (k == t.1) = false := beq_eq_false_iff_ne.2 hk
        rcases h with h | h
        · exact absurd h hk
        · rcases ih h with ⟨v, hv⟩
          exact ⟨v, by simp [List.lookup, hb, hv]⟩

theorem foldl_upsertTag_lookup (ts : List AsgTag)
    (hnd : (ts.map Prod.fst).Nodup) :
    ∀ (s : TagStore) (k : String) (v : String), List.lookup k ts = some v →
      (ts.foldl (fun st t => upsertTag st t.1 t.2) s) k = some v := by
  induction ts with
  | nil => intro s k v h; simp [List.lookup] at h
  | cons t ts ih =>
      intro s k v h
      simp only [List.map_cons, List.nodup_cons] at hnd
      by_cases hk : k = t.1
      · have hb : (k == t.1) = true := beq_iff_eq.2 hk
        have hv : v = t.2 := by
          simp only [List.lookup, hb, Option.some.injEq] at h
          exact h.symm
        rw [List.foldl_cons]
        have hnm : k ∉ ts.map Prod.fst := by rw [hk]; exact hnd.1
        rw [foldl_upsertTag_not_mem ts _ _ hnm]
        simp [upsertTag, hk, hv]
      · have hb : (k == t.1) = false := beq_eq_false_iff_ne.2 hk
        have h2 : List.lookup k ts = some v := by
          simpa only [List.lookup, hb] using h
        rw [List.foldl_cons]
        exact ih hnd.2 _ _ _ h2

/-- C5: after a successful stop transition, a tag key present in both the
start-tag set and the stop-tag set ends with the stop-tag value, a
start-tag key not present in the stop-tag set is deleted, and every
create-or-update call the stop path issues sets propagate-at-launch to
false. -/
theorem stop_tag_transition_law (started_tags stop_tags : List AsgTag)
    (s : TagStore) (k : String)
    (hnd : (stop_tags.map Prod.fst).Nodup) :
    ((k ∈ started_tags.map Prod.fst ∧ k ∈ stop_tags.map Prod.fst) →
        ∃ v, List.lookup k stop_tags = some v
          ∧ applyStopTransition started_tags stop_tags s k = some v)
    ∧ ((k ∈ started_tags.map Prod.fst ∧ k ∉ stop_tags.map Prod.fst) →
        applyStopTransition started_tags stop_tags s k = none)
    ∧ (∀ (asg : String) (c : AsgTagCall), c ∈ createCallsFor asg stop_tags →
        c.propagateAtLaunch = false) := by
  refine ⟨?_, ?_, ?_⟩
  · rintro ⟨_, hstop⟩
    rcases lookup_of_mem_keys stop_tags k hstop with ⟨v, hv⟩
    exact ⟨v, hv, foldl_upsertTag_lookup stop_tags hnd _ k v hv⟩
  · rintro ⟨hstart, hstop⟩
    unfold applyStopTransition
    rw [foldl_upsertTag_not_mem stop_tags _ _ hstop, foldl_deleteTag]
    have hmem : k ∈ start_tags_keys_of started_tags stop_tags := by
      unfold start_tags_keys_of
      rcases List.mem_map.1 hstart with ⟨t, ht, rfl⟩
      exact List.mem_map.2 ⟨t, List.mem_filter.2 ⟨ht, by simpa using hstop⟩, rfl⟩
    simp [hmem]
  · intro asg c hc
    rcases List.mem_map.1 hc with ⟨t, _, rfl⟩
    rfl

/-- Witness for `stop_tag_transition_law` at a concrete input. -/
theorem stop_tag_transition_law_witness :
    (∃ v, List.lookup "both" [("both", "sv"), ("onlyStop", "ov")] = some v
       ∧ applyStopTransition [("both", "old"), ("gone", "g")]
           [("both", "sv"), ("onlyStop", "ov")] (fun _ => none) "both" = some v)
    ∧ applyStopTransition [("both", "old"), ("gone", "g")]
        [("both", "sv"), ("onlyStop", "ov")] (fun _ => none) "gone" = none :=
  ⟨(stop_tag_transition_law [("both", "old"), ("gone", "g")]
      [("both", "sv"), ("onlyStop", "ov")] (fun _ => none) "both"
      (by decide)).1 ⟨by decide, by decide⟩,
   (stop_tag_transition_law [("both", "old"), ("gone", "g")]
      [("both", "sv"), ("onlyStop", "ov")] (fun _ => none) "gone"
      (by decide)).2.1 ⟨by decide, by decide⟩⟩

/-! ## Environment model for the effectful drivers -/

/-- Python exception classes the source distinguishes: `ClientError` (the
only class its hook-preparation handler catches), the `IndexError` raised by
indexing an empty list, and any other exception. -/
inductive PyErr where
  | clientError (msg : String)
  | indexError
  | otherError (msg : String)
  deriving DecidableEq, Repr

/-- Rendering of an exception, as `str(ex)` / `e.response` would produce. -/
def PyErr.message : PyErr → String
  | .clientError m => m
  | .indexError => "list index out of range"
  | .otherError m => m

/-- Control-plane calls the drivers issue (tag calls are modelled by their
effect and outcome; see the tag bookkeeping section). -/
inductive AsgCall where
  | updateAsg (name : String) (desiredCapacity : Nat) (minSize : Nat)
  | putHookCall (name : String) (hook : String) (timeout : Nat)
  | statusQuery (idx : Nat) (ids : List String)
  deriving DecidableEq, Repr

/-- Structured log events; the Python format templates are kept verbatim
(braces escaped) and data arguments are kept structural where the source
passes lists or records to the logger. -/
inductive AsgLog where
  | infoIds (label : String) (ids : List String)
  | infoMsg (template : String) (args : List String)
  | errorMsg (template : String) (args : List String)
  | warnNotStoppingInst (inst : AsgInstance)
  | warnNotStartingId (id : String)
  | warnTagging (template : String) (groups : List String) (emsg : String)
  deriving DecidableEq, Repr

/-- Source constant `ERR_STARTING_ASG_INSTANCES`. -/
def ERR_STARTING_ASG_INSTANCES : String :=
  "Error starting asg instances \x7b\x7d, (\x7b\x7d)"

/-- Source constant `ERR_STOPPING_ASG_INSTANCES`. -/
def ERR_STOPPING_ASG_INSTANCES : String :=
  "Error stopping asg instances \x7b\x7d, (\x7b\x7d)"

/-- Source constant `INF_ADD_KEYS`. -/
def INF_ADD_KEYS : String :=
  "Adding \x7b\x7d key(s) \x7b\x7d to asg instance(s) \x7b\x7d"

/-- Source constant `INFO_REMOVING_KEYS`. -/
def INFO_REMOVING_KEYS : String :=
  "Removing \x7b\x7d key(s) \x7b\x7d from asg instance(s) \x7b\x7d"

/-- Source constant `WARN_STARTED_ASG_INSTANCES_TAGGING`. -/
def WARN_STARTED_ASG_INSTANCES_TAGGING : String :=
  "Error deleting or creating tags for started asg \x7b\x7d (\x7b\x7d)"

/-- Source constant `WARN_STOPPED_ASG_INSTANCES_TAGGING`. -/
def WARN_STOPPED_ASG_INSTANCES_TAGGING : String :=
  "Error deleting or creating tags for stopped asg \x7b\x7d (\x7b\x7d)"

/-- Source constant `WARNING_ASG_INSTANCE_NOT_STARTING`. -/
def WARNING_ASG_INSTANCE_NOT_STARTING : String :=
  "ASG instance \x7b\x7d is not started"

/-- Source constant `WARNING_ASG_INSTANCE_NOT_STOPPING`. -/
def WARNING_ASG_INSTANCE_NOT_STOPPING : String :=
  "ASG instance \x7b\x7d is not stopped"

/-- Inline message of the hook-update error handler (source lines 256, 383). -/
def ERR_HOOK_UPDATE : String :=
  "Error whiling updating the termination lifecycle hook heartbeat timeout : \x7b\x7d"

/-- Inline message of the timeout-fetch error handler (source line 211). -/
def ERR_HOOK_TIMEOUT_GET : String :=
  "Error whiling getting the \x7b\x7d lifecyclehook heatbeat timeout : \x7b\x7d"

/-- Inline info message of source line 253. -/
def INF_DISPLAY_TIMEOUT : String :=
  "Displaying the LifecycleHook HeartbeatTimeout : \x7b\x7d"

/-- Inline info message of source lines 263, 392. -/
def INF_NO_ECS : String := "No affected ECS found..."

/-- Inline info message of source lines 273, 404. -/
def INF_NO_ASG : String := "No affected ASG found..."

/-- Python `",".join(asg)` where `asg` is a string joins its characters. -/
def commaJoinChars (s : String) : String :=
  String.intercalate "," (s.data.map (fun c => String.singleton c))

/-- Boolean list-prefix test (first argument leads the second). -/
def leadsWith : List Char → List Char → Bool
  | [], _ => true
  | _ :: _, [] => false
  | p :: ps, c :: cs => p == c && leadsWith ps cs

/-- Boolean substring-occurrence test on character lists. -/
def hasInfixChars (pat l : List Char) : Bool :=
  (List.range (l.length + 1)).any (fun i => leadsWith pat (l.drop i))

/-- The jmespath filter of `get_asg_termination_lifecycle_hook_name`:
hooks whose name contains the substring `Termination`. -/
def hasTermination (s : String) : Bool :=
  hasInfixChars "Termination".data s.data

/-- The environment: outcome of every control-plane and parameter-store
call the drivers make.  Status responses are indexed by call order (the
`Nat` argument) and carry the queried group names. -/
structure CloudEnv where
  describeHooks : String → Except PyErr (List String)
  ssmParam : String → Except PyErr Nat
  putHook : String → String → Nat → Except PyErr Unit
  updateGroup : String → Nat → Nat → Except PyErr Unit
  statusResp : Nat → List String → List (String × Nat)
  delTag : String → String → Except PyErr Unit
  addTag : String → String → String → Except PyErr Unit

/-! ## Tag sections of the drivers (source lines 305-343 and 431-469) -/

/-- Sequences fallible tag calls; the first failure aborts the rest
(the loops sit inside one `try`). -/
def seqTagCalls : List (Except PyErr Unit) → Option PyErr
  | [] => none
  | Except.ok _ :: rest => seqTagCalls rest
  | Except.error e :: _ => some e

/-- The quoted key rendering of source lines 309, 329, 435, 455. -/
def quotedKeys (ks : List String) : String :=
  String.intercalate "," (ks.map (fun k => "\"" ++ k ++ "\""))

/-- Body of the stop-path tagging `try` (source lines 326-338 and the
symmetric 306-318): remove start-tag keys from every stopped group, then
create-or-update every stop tag, logging the two info lines; returns the
logs and the first uncaught tag-call failure, if any. -/
def stopTagOps (env : CloudEnv) (stopped : List String)
    (start_tags_keys : List String) (stop_tags : List AsgTag) :
    List AsgLog × Option PyErr :=
  let lgs1 :=
    if start_tags_keys.length ≠ 0 then
      [AsgLog.infoMsg INFO_REMOVING_KEYS
        ["start", quotedKeys start_tags_keys, String.intercalate "," stopped]]
    else []
  let delRes :=
    if start_tags_keys.length ≠ 0 then
      seqTagCalls ((stopped.map (fun asg =>
        start_tags_keys.map (fun k => env.delTag asg k))).flatten)
    else none
  match delRes with
  | some e => (lgs1, some e)
  | none =>
      let lgs2 :=
        if stop_tags.length > 0 then
          lgs1 ++ [AsgLog.infoMsg INF_ADD_KEYS
            ["stop", toString stop_tags, String.intercalate "," stopped]]
        else lgs1
      let addRes :=
        if stop_tags.length > 0 then
          seqTagCalls ((stopped.map (fun asg =>
            stop_tags.map (fun t => env.addTag asg t.1 t.2))).flatten)
        else none
      (lgs2, addRes)

/-- Logs of the stop-path tag section: the `try` body, plus the warning of
the `except` arm when a tag call failed (source lines 339-340). -/
def stopTagLogs (env : CloudEnv) (stopped : List String)
    (start_tags_keys : List String) (stop_tags : List AsgTag) : List AsgLog :=
  match stopTagOps env stopped start_tags_keys stop_tags with
  | (lgs, some e) =>
      lgs ++ [AsgLog.warnTagging WARN_STOPPED_ASG_INSTANCES_TAGGING
        stopped e.message]
  | (lgs, none) => lgs

/-- The stop-path tag-and-yield section (source lines 325-343): guarded by
a non-empty stopped list, runs the tagging `try`/`except`, then yields
`(groupId, STATE_STOPPED)` for every group of the list. -/
def stopTagAndYield (env : CloudEnv) (stopped : List String)
    (start_tags_keys : List String) (stop_tags : List AsgTag) :
    List AsgLog × List (String × String) :=
  if stopped.length > 0 then
    (stopTagLogs env stopped start_tags_keys stop_tags,
     stopped.map (fun g => (g, STATE_STOPPED)))
  else ([], [])

/-- Body of the start-path tagging `try` (source lines 432-444 and the
symmetric 452-464). -/
def startTagOps (env : CloudEnv) (started : List String)
    (stop_tags_keys : List String) (start_tags : List AsgTag) :
    List AsgLog × Option PyErr :=
  let lgs1 :=
    if stop_tags_keys.length > 0 then
      [AsgLog.infoMsg INFO_REMOVING_KEYS
        ["stop", quotedKeys stop_tags_keys, String.intercalate "," started]]
    else []
  let delRes :=
    if stop_tags_keys.length > 0 then
      seqTagCalls ((started.map (fun asg =>
        stop_tags_keys.map (fun k => env.delTag asg k))).flatten)
    else none
  match delRes with
  | some e => (lgs1, some e)
  | none =>
      let lgs2 :=
        if start_tags.length > 0 then
          lgs1 ++ [AsgLog.infoMsg INF_ADD_KEYS
            ["start", toString start_tags, String.intercalate "," started]]
        else lgs1
      let addRes :=
        if start_tags.length > 0 then
          seqTagCalls ((started.map (fun asg =>
            start_tags.map (fun t => env.addTag asg t.1 t.2))).flatten)
        else none
      (lgs2, addRes)

/-- Logs of the start-path tag section (warning arm of source lines 445-446). -/
def startTagLogs (env : CloudEnv) (started : List String)
    (stop_tags_keys : List String) (start_tags : List AsgTag) : List AsgLog :=
  match startTagOps env started stop_tags_keys start_tags with
  | (lgs, some e) =>
      lgs ++ [AsgLog.warnTagging WARN_STARTED_ASG_INSTANCES_TAGGING
        started e.message]
  | (lgs, none) => lgs

/-- The start-path tag-and-yield section (source lines 431-449). -/
def startTagAndYield (env : CloudEnv) (started : List String)
    (stop_tags_keys : List String) (start_tags : List AsgTag) :
    List AsgLog × List (String × String) :=
  if started.length > 0 then
    (startTagLogs env started stop_tags_keys start_tags,
     started.map (fun g => (g, STATE_RUNNING)))
  else ([], [])

/-- C6: for every group in the stopped (resp. started) result list, a tag
call failure inside the bookkeeping section is caught and logged as a
warning naming the group list, and the section still yields every group of
the list with its reached state, for any environment whatsoever. -/
theorem tagging_failure_never_drops_yields
    (env : CloudEnv) (stopped started : List String)
    (start_tags_keys stop_tags_keys : List String)
    (stop_tags start_tags : List AsgTag) :
    ((stopTagAndYield env stopped start_tags_keys stop_tags).2
        = stopped.map (fun g => (g, STATE_STOPPED)))
    ∧ (∀ e, (stopTagOps env stopped start_tags_keys stop_tags).2 = some e →
        stopped ≠ [] →
        AsgLog.warnTagging WARN_STOPPED_ASG_INSTANCES_TAGGING stopped e.message
          ∈ (stopTagAndYield env stopped start_tags_keys stop_tags).1)
    ∧ ((startTagAndYield env started stop_tags_keys start_tags).2
        = started.map (fun g => (g, STATE_RUNNING)))
    ∧ (∀ e, (startTagOps env started stop_tags_keys start_tags).2 = some e →
        started ≠ [] →
        AsgLog.warnTagging WARN_STARTED_ASG_INSTANCES_TAGGING started e.message
          ∈ (startTagAndYield env started stop_tags_keys start_tags).1) := by
  refine ⟨?_, ?_, ?_, ?_⟩
  · unfold stopTagAndYield
    by_cases h : stopped.length > 0
    · rw [if_pos h]
    · rw [if_neg h]
      have : stopped = [] := List.length_eq_zero.1 (by omega)
      simp [this]
  · intro e he hne
    have hlen : stopped.length > 0 := by
      cases stopped with
      | nil => exact absurd rfl hne
      | cons a l => simp
    unfold stopTagAndYield stopTagLogs
    rw [if_pos hlen]
    rcases hop : stopTagOps env stopped start_tags_keys stop_tags with ⟨lgs, o⟩
    rw [hop] at he
    simp only at he
    subst he
    simp
  · unfold startTagAndYield
    by_cases h : started.length > 0
    · rw [if_pos h]
    · rw [if_neg h]
      have : started = [] := List.length_eq_zero.1 (by omega)
      simp [this]
  · intro e he hne
    have hlen : started.length > 0 := by
      cases started with
      | nil => exact absurd rfl hne
      | cons a l => simp
    unfold startTagAndYield startTagLogs
    rw [if_pos hlen]
    rcases hop : startTagOps env started stop_tags_keys start_tags with ⟨lgs, o⟩
    rw [hop] at he
    simp only at he
    subst he
    simp

/-- A concrete environment whose tag-creation calls all fail. -/
def tagFailEnv : CloudEnv :=
  { describeHooks := fun _ => Except.ok []
    ssmParam := fun _ => Except.ok 300
    putHook := fun _ _ _ => Except.ok ()
    updateGroup := fun _ _ _ => Except.ok ()
    statusResp := fun _ _ => []
    delTag := fun _ _ => Except.ok ()
    addTag := fun _ _ _ => Except.error (PyErr.otherError "boom") }

/-- Witness for `tagging_failure_never_drops_yields` at a concrete input. -/
theorem tagging_failure_never_drops_yields_witness :
    ((stopTagAndYield tagFailEnv ["g1"] [] [("k", "v")]).2
        = [("g1", STATE_STOPPED)])
    ∧ AsgLog.warnTagging WARN_STOPPED_ASG_INSTANCES_TAGGING ["g1"]
        (PyErr.otherError "boom").message
        ∈ (stopTagAndYield tagFailEnv ["g1"] [] [("k", "v")]).1 :=
  ⟨(tagging_failure_never_drops_yields tagFailEnv ["g1"] [] [] [] [("k", "v")] []).1,
   (tagging_failure_never_drops_yields tagFailEnv ["g1"] [] [] [] [("k", "v")] []).2.1
     (PyErr.otherError "boom") (by decide) (by decide)⟩

/-! ## Per-group stop processing (source lines 248-273) -/

/-- Thread state of the stop driver: the current stopped-names accumulator,
the status-call counter, and the accumulated logs, calls and first uncaught
exception. -/
structure StepSt where
  acc : List String
  idx : Nat
  logs : List AsgLog
  calls : List AsgCall
  err : Option PyErr
  deriving Repr

/-- The `put_lifecycle_hook` call of the stop path and its outcome: only a
`ClientError` is caught (by the surrounding `except ClientError`); any other
exception propagates. -/
def putHookStep (env : CloudEnv) (g hk : String) (t : Nat)
    (lgs : List AsgLog) : List AsgLog × List AsgCall × Option PyErr :=
  match env.putHook g hk t with
  | Except.ok _ => (lgs, [AsgCall.putHookCall g hk t], none)
  | Except.error (PyErr.clientError m) =>
      (lgs ++ [AsgLog.errorMsg ERR_HOOK_UPDATE [m]],
       [AsgCall.putHookCall g hk t], none)
  | Except.error e => (lgs, [AsgCall.putHookCall g hk t], some e)

/-- The hook-preparation `try` of the per-ECS-group stop body (source lines
250-256): hook lookup, `[0]` indexing (raising `IndexError` on an empty
filtered result), timeout fetch (`ClientError` defaults to 300, source
lines 208-213), and the hook update; `except ClientError` catches only
client errors. -/
def ecsHookPrepStop (env : CloudEnv) (g : String) :
    List AsgLog × List AsgCall × Option PyErr :=
  match env.describeHooks g with
  | Except.error (PyErr.clientError m) =>
      ([AsgLog.errorMsg ERR_HOOK_UPDATE [m]], [], none)
  | Except.error e => ([], [], some e)
  | Except.ok hooks =>
      match hooks.filter hasTermination with
      | [] => ([], [], some PyErr.indexError)
      | hk :: _ =>
          match env.ssmParam g with
          | Except.error (PyErr.clientError m) =>
              putHookStep env g hk 300
                [AsgLog.errorMsg ERR_HOOK_TIMEOUT_GET [g, m],
                 AsgLog.infoMsg INF_DISPLAY_TIMEOUT [toString 300]]
          | Except.error e => ([], [], some e)
          | Except.ok v =>
              putHookStep env g hk v
                [AsgLog.infoMsg INF_DISPLAY_TIMEOUT [toString v]]

/-- The scale-down `try` of the per-group stop body (source lines 257-261
and 266-271): issue the mutation to capacity 0/0; on success re-query the
status of the whole subset and replace the accumulator; every exception is
caught and logged. -/
def mutationStopStep (env : CloudEnv) (ids : List String) (st : StepSt)
    (g : String) : StepSt :=
  let st2 := { st with calls := st.calls ++ [AsgCall.updateAsg g 0 0] }
  match env.updateGroup g 0 0 with
  | Except.ok _ =>
      { st2 with
        acc := (env.statusResp st2.idx ids).map Prod.fst,
        idx := st2.idx + 1,
        calls := st2.calls ++ [AsgCall.statusQuery st2.idx ids] }
  | Except.error e =>
      { st2 with logs := st2.logs ++
          [AsgLog.errorMsg ERR_STOPPING_ASG_INSTANCES
            [commaJoinChars g, e.message]] }

/-- One iteration of the ECS stop loop (source lines 249-261); an uncaught
exception from the hook preparation aborts the whole generator, modelled by
the error short-circuit. -/
def ecsStopGroupStep (env : CloudEnv) (ecsIds : List String) (st : StepSt)
    (g : String) : StepSt :=
  if st.err.isSome then st
  else
    match ecsHookPrepStop env g with
    | (lgs, cls, some e) =>
        { st with
            logs := st.logs ++ lgs
            calls := st.calls ++ cls
            err := some e }
    | (lgs, cls, none) =>
        mutationStopStep env ecsIds
          { st with logs := st.logs ++ lgs, calls := st.calls ++ cls } g

/-- One iteration of the plain-group stop loop (source lines 266-271). -/
def plainStopGroupStep (env : CloudEnv) (asgIds : List String) (st : StepSt)
    (g : String) : StepSt :=
  if st.err.isSome then st else mutationStopStep env asgIds st g

theorem mutationStopStep_err (env : CloudEnv) (ids : List String)
    (st : StepSt) (g : String) :
    (mutationStopStep env ids st g).err = st.err
    ∧ AsgCall.updateAsg g 0 0 ∈ (mutationStopStep env ids st g).calls := by
  unfold mutationStopStep
  cases env.updateGroup g 0 0 with
  | ok u => simp
  | error e => simp

theorem putHookStep_err (env : CloudEnv) (g hk : String) (t : Nat)
    (lgs : List AsgLog)
    (hput : ∀ e, env.putHook g hk t = Except.error e →
        ∃ m, e = PyErr.clientError m) :
    (putHookStep env g hk t lgs).2.2 = none := by
  unfold putHookStep
  cases hp : env.putHook g hk t with
  | ok u => simp
  | error e =>
      rcases hput e hp with ⟨m, rfl⟩
      simp

/-- C4 (amended): the ECS stop preparation is best-effort only across
client errors: whenever the hook lookup either fails with a client error or
finds at least one termination-type hook, and the timeout fetch and hook
update can only fail with client errors, the per-group stop body finishes
without an uncaught exception and still issues the scale-down mutation for
the group.  (When the lookup succeeds with no termination hook, indexing
the empty result raises an uncaught `IndexError` instead — see the
counterexample.) -/
theorem ecs_stop_prep_best_effort_for_client_errors
    (env : CloudEnv) (g : String) (ecsIds : List String) (st : StepSt)
    (hst : st.err = none)
    (hhook : (∃ m, env.describeHooks g = Except.error (PyErr.clientError m))
        ∨ (∃ hooks, env.describeHooks g = Except.ok hooks
             ∧ hooks.filter hasTermination ≠ []))
    (hssm : ∀ e, env.ssmParam g = Except.error e →
        ∃ m, e = PyErr.clientError m)
    (hput : ∀ hk t e, env.putHook g hk t = Except.error e →
        ∃ m, e = PyErr.clientError m) :
    (ecsStopGroupStep env ecsIds st g).err = none
    ∧ AsgCall.updateAsg g 0 0 ∈ (ecsStopGroupStep env ecsIds st g).calls := by
  have hprep : (ecsHookPrepStop env g).2.2 = none := by
    unfold ecsHookPrepStop
    rcases hhook with ⟨m, hm⟩ | ⟨hooks, hh, hne⟩
    · rw [hm]
    · rw [hh]
      dsimp only
      cases hf : hooks.filter hasTermination with
      | nil => exact absurd hf hne
      | cons hk rest =>
          dsimp only
          cases hs : env.ssmParam g with
          | ok v =>
              dsimp only
              exact putHookStep_err env g hk v _ (hput hk v)
          | error e =>
              rcases hssm e hs with ⟨m, rfl⟩
              dsimp only
              exact putHookStep_err env g hk 300 _ (hput hk 300)
  unfold ecsStopGroupStep
  rw [hst]
  simp only [Option.isSome_none, Bool.false_eq_true, if_false]
  rcases hp : ecsHookPrepStop env g with ⟨lgs, cls, o⟩
  rw [hp] at hprep
  dsimp only at hprep
  subst hprep
  dsimp only
  exact ⟨(mutationStopStep_err env ecsIds _ g).1,
         (mutationStopStep_err env ecsIds _ g).2⟩

/-- A concrete environment whose lookup finds a termination hook and whose
hook update fails with a client error. -/
def hookClientErrEnv : CloudEnv :=
  { describeHooks := fun _ => Except.ok ["MyTerminationHook"]
    ssmParam := fun _ => Except.ok 120
    putHook := fun _ _ _ => Except.error (PyErr.clientError "denied")
    updateGroup := fun _ _ _ => Except.ok ()
    statusResp := fun _ _ => []
    delTag := fun _ _ => Except.ok ()
    addTag := fun _ _ _ => Except.ok () }

/-- Witness for `ecs_stop_prep_best_effort_for_client_errors` at a concrete
input. -/
theorem ecs_stop_prep_best_effort_witness :
    (ecsStopGroupStep hookClientErrEnv ["e1"]
        { acc := [], idx := 0, logs := [], calls := [], err := none } "e1").err
      = none
    ∧ AsgCall.updateAsg "e1" 0 0 ∈ (ecsStopGroupStep hookClientErrEnv ["e1"]
        { acc := [], idx := 0, logs := [], calls := [], err := none } "e1").calls :=
  ecs_stop_prep_best_effort_for_client_errors hookClientErrEnv "e1" ["e1"]
    { acc := [], idx := 0, logs := [], calls := [], err := none } rfl
    (Or.inr ⟨["MyTerminationHook"], rfl, by decide⟩)
    (fun e he => nomatch he)
    (fun hk t e he => ⟨"denied", by cases he; rfl⟩)

/-! ## Status-verify block and the batch loop of stop_instances
(source lines 235-343) -/

/-- State of the status-verify block: current subset name list, thread
state, the `get_status_count` counter, and whether a `break` fired. -/
structure VerifySt where
  names : List String
  st : StepSt
  cnt : Nat
  brk : Bool
  deriving Repr

/-- One subset check of the status-verify block (source lines 279-290 for
the ECS subset, 292-303 for the plain subset): if fewer names than targeted
were collected, sleep, re-query once, `break` out of the batch loop if the
re-queried count equals the whole batch size, otherwise bump the counter
and — only if it exceeds 3 — warn and `break`.  The source compares each
*instance record* of the batch against a list of name *strings* (line 288),
a membership test that is always false in Python, so the warning branch
covers every member of the batch. -/
def verifyStopSubset (env : CloudEnv) (ids : List String)
    (batch : List AsgInstance) (names : List String)
    (st : StepSt) (cnt : Nat) : VerifySt :=
  if names.length < ids.length then
    let names2 := (env.statusResp st.idx ids).map Prod.fst
    let st2 := { st with
                   idx := st.idx + 1
                   calls := st.calls ++ [AsgCall.statusQuery st.idx ids] }
    if names2.length = batch.length then
      { names := names2, st := st2, cnt := cnt, brk := true }
    else
      let c2 := cnt + 1
      if c2 > 3 then
        { names := names2
          st := { st2 with
                    logs := st2.logs ++ batch.map AsgLog.warnNotStoppingInst }
          cnt := c2
          brk := true }
      else { names := names2, st := st2, cnt := c2, brk := false }
  else { names := names, st := st, cnt := cnt, brk := false }

/-- Result of one batch of stop_instances. -/
structure BatchOut where
  st : StepSt
  yields : List (String × String)
  brk : Bool
  retries : Nat
  deriving Repr

/-- One iteration of the batch loop of `stop_instances` (source lines
235-343): partition the batch into ECS and plain ids, run the two mutation
loops, the status-verify block, and the two tag-and-yield sections.  A
`break` anywhere skips the remainder of the batch and ends the whole batch
loop; an uncaught exception aborts the generator. -/
def stopBatch (env : CloudEnv) (start_tags_keys : List String)
    (stop_tags : List AsgTag) (st0 : StepSt) (batch : List AsgInstance) :
    BatchOut :=
  let ecsIds := (batch.filter (fun i => i.asg_is_ecs == "true")).map
    AsgInstance.id
  let asgIds := (batch.filter (fun i => !(i.asg_is_ecs == "true"))).map
    AsgInstance.id
  let st1 := { st0 with
                 logs := st0.logs ++ [AsgLog.infoIds "asg_ids" asgIds,
                                      AsgLog.infoIds "asg_ecs_ids" ecsIds]
                 acc := [] }
  let stE :=
    if ecsIds ≠ [] then ecsIds.foldl (ecsStopGroupStep env ecsIds) st1
    else { st1 with logs := st1.logs ++ [AsgLog.infoMsg INF_NO_ECS []] }
  if stE.err.isSome then { st := stE, yields := [], brk := true, retries := 0 }
  else
    let ecsStopped := stE.acc
    let stP0 := { stE with acc := [] }
    let stP :=
      if asgIds ≠ [] then asgIds.foldl (plainStopGroupStep env asgIds) stP0
      else { stP0 with logs := stP0.logs ++ [AsgLog.infoMsg INF_NO_ASG []] }
    if stP.err.isSome then { st := stP, yields := [], brk := true, retries := 0 }
    else
      let stopped := stP.acc
      let vE := verifyStopSubset env ecsIds batch ecsStopped stP 0
      let vP :=
        if vE.brk then { vE with names := stopped }
        else verifyStopSubset env asgIds batch stopped vE.st vE.cnt
      if vP.brk then
        { st := vP.st, yields := [], brk := true, retries := vP.cnt }
      else
        let rE := stopTagAndYield env vE.names start_tags_keys stop_tags
        let rP := stopTagAndYield env vP.names start_tags_keys stop_tags
        { st := { vP.st with logs := vP.st.logs ++ rE.1 ++ rP.1 }
          yields := rE.2 ++ rP.2
          brk := false
          retries := vP.cnt }

/-- Observable outcome of a whole driver run: logs, control-plane calls,
the yielded `(groupId, reachedState)` stream, the final per-batch
`get_status_count` values, and the uncaught exception if the generator
aborted. -/
structure RunOut where
  logs : List AsgLog
  calls : List AsgCall
  yields : List (String × String)
  retries : List Nat
  err : Option PyErr
  deriving Repr

/-- The batch loop of `stop_instances`: processes batches in order; a
`break` ends the loop (remaining batches are never processed); an uncaught
exception aborts the run. -/
def stopBatchesLoop (env : CloudEnv) (start_tags_keys : List String)
    (stop_tags : List AsgTag) :
    List (List AsgInstance) → StepSt → List Nat → List (String × String) →
      RunOut
  | [], st, rs, ys =>
      { logs := st.logs, calls := st.calls, yields := ys, retries := rs,
        err := st.err }
  | b :: bs, st, rs, ys =>
      let bo := stopBatch env start_tags_keys stop_tags st b
      if bo.st.err.isSome then
        { logs := bo.st.logs, calls := bo.st.calls, yields := ys ++ bo.yields,
          retries := rs ++ [bo.retries], err := bo.st.err }
      else if bo.brk then
        { logs := bo.st.logs, calls := bo.st.calls, yields := ys ++ bo.yields,
          retries := rs ++ [bo.retries], err := none }
      else
        stopBatchesLoop env start_tags_keys stop_tags bs bo.st
          (rs ++ [bo.retries]) (ys ++ bo.yields)

/-- Source `AsgService.stop_instances(kwargs)`: stop tags default to the
empty list when the configuration carries none; the start-tag keys to
remove are those not also stop-tag keys; batches of `STOP_BATCH_SIZE`. -/
def stop_instances (env : CloudEnv) (stopped_asg_instances : List AsgInstance)
    (started_tags : List AsgTag) (stopped_tags : Option (List AsgTag)) :
    RunOut :=
  let stop_tags := stopped_tags.getD []
  let start_keys := start_tags_keys_of started_tags stop_tags
  stopBatchesLoop env start_keys stop_tags
    (instance_batches stopped_asg_instances STOP_BATCH_SIZE)
    { acc := [], idx := 0, logs := [], calls := [], err := none } [] []

/-! ## Concrete runs settling the convergence-polling claims -/

/-- Fifty group names, one full stop batch. -/
def c1Names : List String :=
  ["g0", "g1", "g2", "g3", "g4", "g5", "g6", "g7", "g8", "g9",
   "g10", "g11", "g12", "g13", "g14", "g15", "g16", "g17", "g18", "g19",
   "g20", "g21", "g22", "g23", "g24", "g25", "g26", "g27", "g28", "g29",
   "g30", "g31", "g32", "g33", "g34", "g35", "g36", "g37", "g38", "g39",
   "g40", "g41", "g42", "g43", "g44", "g45", "g46", "g47", "g48", "g49"]

/-- Fifty-one plain groups: one full batch of 50 plus a second batch of 1. -/
def c1Groups : List AsgInstance :=
  (c1Names ++ ["g50"]).map (fun n => { id := n, asg_is_ecs := "false" })

/-- Environment for the C1 run: every mutation succeeds; each status query
during the mutation loop reports 49 of the 50 names, and the re-check after
the 5-second wait (status call 50) reports all 50. -/
def c1Env : CloudEnv :=
  { describeHooks := fun _ => Except.ok []
    ssmParam := fun _ => Except.ok 300
    putHook := fun _ _ _ => Except.ok ()
    updateGroup := fun _ _ _ => Except.ok ()
    statusResp := fun i _ =>
      if i < 50 then (c1Names.take 49).map (fun n => (n, 0))
      else c1Names.map (fun n => (n, 0))
    delTag := fun _ _ => Except.ok ()
    addTag := fun _ _ _ => Except.ok () }

/-- The C1 run. -/
def c1Run : RunOut := stop_instances c1Env c1Groups [] (some [])

set_option maxRecDepth 100000

/-- C1: on a batch where the initial status queries report only 49 of 50
targeted groups and the single re-check after the wait reports all 50, the
source executes `break` (line 296): `stop_instances` yields nothing at all
— neither the 50 converged groups of the first batch nor anything from the
second batch, which is never processed — and raises no exception. -/
theorem stop_break_on_successful_recheck :
    c1Run.yields = [] ∧ c1Run.err = none := by decide

/-- Environment for the C2 run: every status query, including the re-check,
keeps reporting only one of the two targeted names. -/
def c2Env : CloudEnv :=
  { c1Env with statusResp := fun _ _ => [("a", 0)] }

/-- Two plain groups forming one stop batch. -/
def c2Groups : List AsgInstance :=
  [{ id := "a", asg_is_ecs := "false" }, { id := "b", asg_is_ecs := "false" }]

/-- The C2 run. -/
def c2Run : RunOut := stop_instances c2Env c2Groups [] (some [])

/-- Recognizer for the not-stopping warning events. -/
def isNotStoppingWarn : AsgLog → Bool
  | AsgLog.warnNotStoppingInst _ => true
  | _ => false

/-- C2: under a persistent shortfall (every status query keeps reporting 1
of 2 targeted groups) the stop driver performs exactly one re-check, the
`get_status_count` counter ends at 1 — it can never exceed 3, so the
not-stopping warning branch is dead code and no warning is emitted — and
the batch is not abandoned: the partial group list is tagged and yielded. -/
theorem stop_no_notstopping_warning_under_persistent_shortfall :
    c2Run.yields = [("a", STATE_STOPPED)]
    ∧ c2Run.retries = [1]
    ∧ c2Run.logs.filter isNotStoppingWarn = []
    ∧ c2Run.err = none := by decide

/-- Environment for the C3 run: the status query reports the group with 5
in-service instances, i.e. in the running state. -/
def c3Env : CloudEnv :=
  { c1Env with statusResp := fun _ _ => [("g", 5)] }

/-- The C3 run: one plain group. -/
def c3Run : RunOut :=
  stop_instances c3Env [{ id := "g", asg_is_ecs := "false" }] [] (some [])

/-- C3: the stopped-names list is built from the names of every descriptor
the status query returns, without filtering on the computed state (source
line 269 ignores the `State` field), so a group the last status query
observed as `running` (5 in-service instances) is still yielded with state
`stopped`. -/
theorem stop_yields_group_observed_running :
    c3Run.yields = [("g", STATE_STOPPED)]
    ∧ get_asg_status [("g", 5)] = [("g", "running")] := by decide

/-- Environment for the C4 counterexample: the hook lookup succeeds but the
group has no termination-type lifecycle hook. -/
def c4Env : CloudEnv :=
  { c1Env with describeHooks := fun _ => Except.ok ["scale-out-hook"] }

/-- The C4 run: one ECS-flagged group with no termination hook. -/
def c4Run : RunOut :=
  stop_instances c4Env [{ id := "e1", asg_is_ecs := "true" }] [] (some [])

/-- C4 counterexample: when the hook lookup finds no termination-type hook,
indexing `[0]` of the empty result raises an `IndexError` that the
`except ClientError` handler does not catch: `stop_instances` aborts with
the uncaught exception, no control-plane call is issued — in particular the
scale-down mutation for the group is never issued — and nothing is
yielded. -/
theorem ecs_stop_missing_hook_aborts :
    c4Run.err = some PyErr.indexError
    ∧ c4Run.calls = []
    ∧ c4Run.yields = [] := by decide

/-! ## Start-path mutation loop (source lines 377-404) -/

/-- One value of the per-group scaling configuration mapping
(`asg_conf[...]` with keys `desired_capacity` and `min_size`). -/
structure ScalingConf where
  desired_capacity : Nat
  min_size : Nat
  deriving DecidableEq, Repr

/-- Thread state of the start mutation loop, with the cloud-side scaling
bounds tracked per group name to state frame properties. -/
structure StartSt where
  acc : List String
  idx : Nat
  logs : List AsgLog
  calls : List AsgCall
  cloud : String → Nat × Nat

/-- The inner `for key, value in asg_conf.items()` of the per-group start
body (source lines 397-400): for every configuration item whose key equals
the group, issue the scale-up mutation and re-query the subset status; the
first exception aborts the remaining items. -/
def startConfLoop (env : CloudEnv) (asgIds : List String) (g : String) :
    List (String × ScalingConf) → StartSt → StartSt × Option PyErr
  | [], st => (st, none)
  | (key, value) :: rest, st =>
      if key == g then
        let st1 := { st with calls := st.calls ++
          [AsgCall.updateAsg g value.desired_capacity value.min_size] }
        match env.updateGroup g value.desired_capacity value.min_size with
        | Except.ok _ =>
            let st2 := { st1 with
              acc := (env.statusResp st1.idx asgIds).map Prod.fst
              idx := st1.idx + 1
              calls := st1.calls ++ [AsgCall.statusQuery st1.idx asgIds]
              cloud := fun n =>
                if n = g then (value.desired_capacity, value.min_size)
                else st.cloud n }
            startConfLoop env asgIds g rest st2
        | Except.error e => (st1, some e)
      else startConfLoop env asgIds g rest st

/-- One iteration of the plain-group start loop (source lines 395-402):
the inner configuration scan inside a `try` whose `except` logs the error
and moves on. -/
def startGroupStep (env : CloudEnv) (asg_conf : List (String × ScalingConf))
    (asgIds : List String) (st : StartSt) (g : String) : StartSt :=
  match startConfLoop env asgIds g asg_conf st with
  | (st1, none) => st1
  | (st1, some e) =>
      { st1 with logs := st1.logs ++
          [AsgLog.errorMsg ERR_STARTING_ASG_INSTANCES
            [commaJoinChars g, e.message]] }

/-- The plain-group start mutation loop (source lines 394-404, the ECS loop
of lines 377-392 shares the same configuration scan). -/
def startMutationLoop (env : CloudEnv)
    (asg_conf : List (String × ScalingConf)) (asgIds : List String)
    (st0 : StartSt) : StartSt :=
  asgIds.foldl (startGroupStep env asg_conf asgIds) st0

theorem startConfLoop_no_match (env : CloudEnv) (asgIds : List String)
    (g : String) :
    ∀ (asg_conf : List (String × ScalingConf)) (st : StartSt),
      g ∉ asg_conf.map Prod.fst →
      startConfLoop env asgIds g asg_conf st = (st, none) := by
  intro asg_conf
  induction asg_conf with
  | nil => intro st _; rfl
  | cons kv rest ih =>
      intro st hg
      simp only [List.map_cons, List.mem_cons] at hg
      push_neg at hg
      have hk : (kv.1 == g) = false := beq_eq_false_iff_ne.2 (Ne.symm hg.1)
      cases kv with
      | mk key value =>
          simp only at hk
          simp only [startConfLoop, hk]
          exact ih st hg.2

theorem startConfLoop_cloud_ne (env : CloudEnv) (asgIds : List String)
    (g : String) :
    ∀ (asg_conf : List (String × ScalingConf)) (st : StartSt) (n : String),
      n ≠ g →
      ((startConfLoop env asgIds g asg_conf st).1).cloud n = st.cloud n := by
  intro asg_conf
  induction asg_conf with
  | nil => intro st n _; rfl
  | cons kv rest ih =>
      intro st n hn
      cases kv with
      | mk key value =>
          simp only [startConfLoop]
          split
          · cases hu : env.updateGroup g value.desired_capacity
                value.min_size with
            | ok u =>
                dsimp only
                rw [ih _ n hn]
                simp [hn]
            | error e => rfl
          · exact ih st n hn

theorem startConfLoop_update_calls (env : CloudEnv) (asgIds : List String)
    (g : String) :
    ∀ (asg_conf : List (String × ScalingConf)) (st : StartSt)
      (n : String) (d m : Nat),
      AsgCall.updateAsg n d m ∈ ((startConfLoop env asgIds g asg_conf st).1).calls →
      AsgCall.updateAsg n d m ∈ st.calls ∨ n = g := by
  intro asg_conf
  induction asg_conf with
  | nil => intro st n d m h; exact Or.inl h
  | cons kv rest ih =>
      intro st n d m h
      cases kv with
      | mk key value =>
          simp only [startConfLoop] at h
          split at h
          · cases hu : env.updateGroup g value.desired_capacity
                value.min_size with
            | ok u =>
                rw [hu] at h
                dsimp only at h
                rcases ih _ n d m h with hmem | hg
                · simp only [List.mem_append, List.mem_singleton] at hmem
                  rcases hmem with (hmem | hupd) | hstat
                  · exact Or.inl hmem
                  · cases hupd
                    exact Or.inr rfl
                  · cases hstat
                · exact Or.inr hg
            | error e =>
                rw [hu] at h
                dsimp only at h
                rcases List.mem_append.1 h with hmem | hmem
                · exact Or.inl hmem
                · simp only [List.mem_singleton] at hmem
                  cases hmem
                  exact Or.inr rfl
          · exact ih st n d m h

theorem startGroupStep_cloud_ne (env : CloudEnv)
    (asg_conf : List (String × ScalingConf)) (asgIds : List String)
    (st : StartSt) (g n : String) (hn : n ≠ g) :
    (startGroupStep env asg_conf asgIds st g).cloud n = st.cloud n := by
  unfold startGroupStep
  rcases hc : startConfLoop env asgIds g asg_conf st with ⟨st1, o⟩
  have := startConfLoop_cloud_ne env asgIds g asg_conf st n hn
  rw [hc] at this
  cases o with
  | none => exact this
  | some e => exact this

theorem startGroupStep_update_calls (env : CloudEnv)
    (asg_conf : List (String × ScalingConf)) (asgIds : List String)
    (st : StartSt) (g n : String) (d m : Nat)
    (h : AsgCall.updateAsg n d m ∈ (startGroupStep env asg_conf asgIds st g).calls) :
    AsgCall.updateAsg n d m ∈ st.calls ∨ n = g := by
  unfold startGroupStep at h
  rcases hc : startConfLoop env asgIds g asg_conf st with ⟨st1, o⟩
  rw [hc] at h
  have hbase := startConfLoop_update_calls env asgIds g asg_conf st n d m
  rw [hc] at hbase
  cases o with
  | none => exact hbase h
  | some e => exact hbase h

/-- C9: a group with no entry in the per-group scaling configuration is
silently skipped by the start mutation loop: its own iteration issues no
control-plane call and logs nothing (in particular no log records the
skip), and across a whole loop over any id list no scale-up mutation is
ever issued for it, leaving its cloud-side desired capacity and min size
unchanged. -/
theorem start_skips_groups_without_conf (env : CloudEnv)
    (asg_conf : List (String × ScalingConf)) (g : String)
    (hg : g ∉ asg_conf.map Prod.fst) :
    (∀ (asgIds : List String) (st : StartSt),
        startGroupStep env asg_conf asgIds st g = st)
    ∧ (∀ (asgIds : List String) (st0 : StartSt),
        (startMutationLoop env asg_conf asgIds st0).cloud g = st0.cloud g
        ∧ (∀ d m,
            AsgCall.updateAsg g d m ∈ (startMutationLoop env asg_conf asgIds st0).calls →
            AsgCall.updateAsg g d m ∈ st0.calls)) := by
  have hstep : ∀ (asgIds : List String) (st : StartSt),
      startGroupStep env asg_conf asgIds st g = st := by
    intro asgIds st
    unfold startGroupStep
    rw [startConfLoop_no_match env asgIds g asg_conf st hg]
  have hloop : ∀ (L ids : List String) (st0 : StartSt),
      (L.foldl (startGroupStep env asg_conf ids) st0).cloud g = st0.cloud g
      ∧ (∀ d m,
          AsgCall.updateAsg g d m ∈
            (L.foldl (startGroupStep env asg_conf ids) st0).calls →
          AsgCall.updateAsg g d m ∈ st0.calls) := by
    intro L
    induction L with
    | nil => intro ids st0; exact ⟨rfl, fun d m h => h⟩
    | cons a rest ih =>
        intro ids st0
        rw [List.foldl_cons]
        by_cases ha : a = g
        · subst ha
          rw [hstep ids st0]
          exact ih ids st0
        · constructor
          · rw [(ih ids _).1]
            exact startGroupStep_cloud_ne env asg_conf ids st0 a g
              (fun h => ha h.symm)
          · intro d m h
            have h2 := (ih ids _).2 d m h
            rcases startGroupStep_update_calls env asg_conf ids st0 a g d m h2
              with hmem | hga
            · exact hmem
            · exact absurd hga.symm ha
  exact ⟨hstep, fun asgIds st0 => hloop asgIds asgIds st0⟩

/-- A concrete start state with nontrivial cloud bounds. -/
def c9St : StartSt :=
  { acc := [], idx := 0, logs := [], calls := []
    cloud := fun _ => (7, 3) }

/-- Witness for `start_skips_groups_without_conf` at a concrete input. -/
theorem start_skips_groups_without_conf_witness :
    startGroupStep tagFailEnv [("a", { desired_capacity := 2, min_size := 1 })]
        ["b"] c9St "b" = c9St
    ∧ (startMutationLoop tagFailEnv
        [("a", { desired_capacity := 2, min_size := 1 })] ["b"] c9St).cloud "b"
      = c9St.cloud "b" :=
  ⟨(start_skips_groups_without_conf tagFailEnv
      [("a", { desired_capacity := 2, min_size := 1 })] "b" (by decide)).1
      ["b"] c9St,
   ((start_skips_groups_without_conf tagFailEnv
      [("a", { desired_capacity := 2, min_size := 1 })] "b" (by decide)).2
      ["b"] c9St).1⟩


end AsgSched
